import Mathlib

/-!
Shallow embedding of the Nachos MP4 file-system core: `FileHeader` from
`code/filesys/filehdr.cc` and `FileSystem` from `filesys.cc`, together with
the collaborators whose implementations are only declared here
(PersistentBitmap, Directory, the sector store of the synchronous disk),
which are modelled from the specification.  C `int`s are modelled as `Int`;
every size and division the claims exercise is nonnegative, where C's
truncating division agrees with Euclidean division.
-/

/-- Modelled from the spec: `SectorSize` from `disk.h` (not in src); §3 and the
§8 scenarios fix it to 128 bytes per sector. -/
def SectorSize : Int := 128

/-- Modelled from the spec: `NumDirect` from `filehdr.h` (not in src); §8 fixes
it to 30 direct pointers per header. -/
def NumDirect : Int := 30

/-- `NumDirect` as a `Nat`, used for the length of the `dataSectors` array. -/
def NumDirectN : Nat := 30

/-- Modelled from the spec: `MaxFileSize = NumDirect * SectorSize` (§3). -/
def MaxFileSize : Int := NumDirect * SectorSize

/-- Modelled from the spec: total number of sectors of the disk (§8: 64). -/
def NumSectors : Nat := 64

/-- Modelled from the spec: the root directory file header lives at sector 1 (§3). -/
def DirectorySector : Int := 1

/-- Modelled from the spec: fixed directory capacity (§8: 10 entries). -/
def NumDirEntries : Nat := 10

/-- Modelled from the spec: size of a directory file, pre-computed from
`NumDirEntries` and `sizeof(DirectoryEntry)` (directory.h not in src).  No
claim depends on the concrete value. -/
def DirectoryFileSize : Int := 640

/-- `divRoundUp` from `lib/utility.h`: `(n / d) + ((n % d) > 0 ? 1 : 0)`.
Written with Euclidean division, which agrees with C's truncating division on
the nonnegative operands the file system uses. -/
def divRoundUp (n d : Int) : Int := n / d + (if 0 < n % d then 1 else 0)

/-- Modelled from the spec: `PersistentBitmap` (pbitmap/bitmap sources not in
src), §4.1: one bit per sector, `false` = free. -/
structure PersistentBitmap where
  bits : List Bool
deriving DecidableEq

/-- Modelled from the spec (§4.1): `NumClear()` counts the free bits. -/
def PersistentBitmap.NumClear (bm : PersistentBitmap) : Nat := bm.bits.count false

/-- Core of `FindAndSet`: locate the lowest `false` bit, set it, and return its
index together with the updated bit list; `none` when no bit is free. -/
def fasList : List Bool → Option (Nat × List Bool)
  | [] => none
  | false :: rest => some (0, true :: rest)
  | true :: rest =>
    match fasList rest with
    | none => none
    | some r => some (r.1 + 1, true :: r.2)

/-- Modelled from the spec (§4.1): `FindAndSet()` returns the smallest free
sector and marks it, or `-1` when none is free. -/
def PersistentBitmap.FindAndSet (bm : PersistentBitmap) : Int × PersistentBitmap :=
  match fasList bm.bits with
  | none => (-1, bm)
  | some r => ((r.1 : Int), ⟨r.2⟩)

/-- Reset bit `n` of a bit list (identity when out of range, which the code
never exercises: `Bitmap::Clear` asserts the index is in range). -/
def clearListBits : List Bool → Nat → List Bool
  | [], _ => []
  | _ :: rest, 0 => false :: rest
  | b :: rest, n + 1 => b :: clearListBits rest n

/-- Modelled from the spec (§4.1): `Clear(s)` resets bit `s`. -/
def PersistentBitmap.Clear (bm : PersistentBitmap) (s : Int) : PersistentBitmap :=
  if s < 0 then bm else ⟨clearListBits bm.bits s.toNat⟩

/-- Modelled from the spec (§4.1): `Test(s)` queries bit `s`. -/
def PersistentBitmap.Test (bm : PersistentBitmap) (s : Int) : Bool :=
  if s < 0 then false else bm.bits.getD s.toNat false

/-- The in-memory file header chain of `filehdr.h`/`filehdr.cc`.  The C++
object holds `numBytes`, `numSectors`, `nextFileHeaderSector`,
`dataSectors[NumDirect]` and the owning pointer `nextFileHeader`; `terminal`
is the state with `nextFileHeader == NULL`, `chained` the state with a loaded
successor. -/
inductive FileHeader where
  | terminal (numBytes numSectors nextFileHeaderSector : Int) (dataSectors : List Int)
  | chained (numBytes numSectors nextFileHeaderSector : Int) (dataSectors : List Int)
      (next : FileHeader)
deriving DecidableEq

/-- Field accessor: `numBytes`. -/
def FileHeader.numBytes : FileHeader → Int
  | .terminal nb _ _ _ => nb
  | .chained nb _ _ _ _ => nb

/-- Field accessor: `numSectors`. -/
def FileHeader.numSectors : FileHeader → Int
  | .terminal _ ns _ _ => ns
  | .chained _ ns _ _ _ => ns

/-- Field accessor: `nextFileHeaderSector`. -/
def FileHeader.nextFileHeaderSector : FileHeader → Int
  | .terminal _ _ nhs _ => nhs
  | .chained _ _ nhs _ _ => nhs

/-- Field accessor: `dataSectors`. -/
def FileHeader.dataSectors : FileHeader → List Int
  | .terminal _ _ _ ds => ds
  | .chained _ _ _ ds _ => ds

/-- Whether the in-memory chain has a successor (`nextFileHeader != NULL`). -/
def FileHeader.isChained : FileHeader → Bool
  | .terminal _ _ _ _ => false
  | .chained _ _ _ _ _ => true

/-- The `numBytes` of each segment along the chain, head first. -/
def FileHeader.segBytes : FileHeader → List Int
  | .terminal nb _ _ _ => [nb]
  | .chained nb _ _ _ n => nb :: n.segBytes

/-- The header sectors of all successor segments (`nextFileHeaderSector`
values along the chain). -/
def FileHeader.succSectors : FileHeader → List Int
  | .terminal _ _ _ _ => []
  | .chained _ _ nhs _ n => nhs :: n.succSectors

/-- Number of successor segments of the chain. -/
def FileHeader.chainLen : FileHeader → Nat
  | .terminal _ _ _ _ => 0
  | .chained _ _ _ _ n => n.chainLen + 1

/-- Well-formedness the C++ maintains between the two successor fields: the
pointer is loaded exactly when the sector is not the sentinel `-1`. -/
def FileHeader.wfb : FileHeader → Bool
  | .terminal _ _ nhs _ => nhs == -1
  | .chained _ _ nhs _ n => (nhs != -1) && n.wfb

/-- Every non-terminal segment holds exactly `MaxFileSize` bytes (§8
invariant 2). -/
def FileHeader.nonTerminalFullb : FileHeader → Bool
  | .terminal _ _ _ _ => true
  | .chained nb _ _ _ n => (nb == MaxFileSize) && n.nonTerminalFullb

/-- The `for` loop of `FileHeader::Allocate` (filehdr.cc:85-94): `numSectors`
successive `FindAndSet` calls, collecting the returned sectors. -/
def FileHeader.allocSectors : PersistentBitmap → Nat → List Int × PersistentBitmap
  | bm, 0 => ([], bm)
  | bm, n + 1 =>
    let r := bm.FindAndSet
    let rest := FileHeader.allocSectors r.2 n
    (r.1 :: rest.1, rest.2)

/-- Result of `FileHeader::Allocate`: the `int` return value, the bitmap after
the call, the header object the call built (the mutated `this`), and whether
every executed `ASSERT` held (`ASSERT(dataSectors[i] >= 0)` at filehdr.cc:87
and `ASSERT(nextFileHeaderSector >= 0)` at filehdr.cc:98, over the whole call
tree). -/
structure AllocResult where
  ret : Int
  freeMap : PersistentBitmap
  hdr : FileHeader
  assertsOk : Bool

/-- `FileHeader::Allocate` (filehdr.cc:71-105) with an explicit recursion
bound: clamp `numBytes` to `MaxFileSize`, fail with 0 when
`NumClear() < numSectors`, otherwise allocate the data sectors; when
`fileSize - MaxFileSize > 0` additionally allocate a successor header sector,
recurse on the remainder, and return `SectorSize + (recursive return)`;
otherwise return `SectorSize`.  The zeroing `WriteSector` calls touch only
the freshly allocated data sectors and are not represented.  Each recursive
call shrinks `fileSize` by `MaxFileSize ≥ 1`, so with `fuel = fileSize.toNat`
(as `FileHeader.Allocate` passes it) the fuel-exhausted branch is
unreachable. -/
def FileHeader.AllocateF : Nat → PersistentBitmap → Int → AllocResult
  | fuel, freeMap, fileSize =>
    let numBytes := if MaxFileSize < fileSize then MaxFileSize else fileSize
    let numSectors := divRoundUp numBytes SectorSize
    if (freeMap.NumClear : Int) < numSectors then
      ⟨0, freeMap, FileHeader.terminal numBytes numSectors (-1) (List.replicate NumDirectN (-1)),
        true⟩
    else
      let sb := FileHeader.allocSectors freeMap numSectors.toNat
      let ds := sb.1 ++ List.replicate (NumDirectN - numSectors.toNat) (-1)
      let dataOk := sb.1.all (fun s => decide (0 ≤ s))
      if 0 < fileSize - MaxFileSize then
        match fuel with
        | 0 => ⟨0, freeMap, FileHeader.terminal numBytes numSectors (-1) ds, true⟩
        | f + 1 =>
          let fs2 := sb.2.FindAndSet
          let inner := FileHeader.AllocateF f fs2.2 (fileSize - MaxFileSize)
          ⟨SectorSize + inner.ret, inner.freeMap,
            FileHeader.chained numBytes numSectors fs2.1 ds inner.hdr,
            (dataOk && decide (0 ≤ fs2.1)) && inner.assertsOk⟩
      else
        ⟨SectorSize, sb.2, FileHeader.terminal numBytes numSectors (-1) ds, dataOk⟩

/-- `FileHeader::Allocate`: the fuel `fileSize.toNat` dominates the recursion
depth, so this is exactly the C++ recursion. -/
def FileHeader.Allocate (freeMap : PersistentBitmap) (fileSize : Int) : AllocResult :=
  FileHeader.AllocateF fileSize.toNat freeMap fileSize

/-- `FileHeader::Deallocate` (filehdr.cc:114-121): clear `dataSectors[i]` for
`i < numSectors`, then recurse into the loaded successor.  Note that it never
clears `nextFileHeaderSector` itself. -/
def FileHeader.Deallocate : FileHeader → PersistentBitmap → PersistentBitmap
  | .terminal _ ns _ ds, bm => (ds.take ns.toNat).foldl PersistentBitmap.Clear bm
  | .chained _ ns _ ds next, bm =>
    FileHeader.Deallocate next ((ds.take ns.toNat).foldl PersistentBitmap.Clear bm)

/-- The persisted image of one header sector: the fields `WriteBack` packs
into the sector buffer, in order (filehdr.cc:174-184). -/
structure SectorData where
  numBytes : Int
  numSectors : Int
  nextFileHeaderSector : Int
  dataSectors : List Int
deriving DecidableEq

/-- `FileHeader::WriteBack` (filehdr.cc:162-189): encode this header's four
persisted fields into its sector, then recurse on the successor when
`nextFileHeaderSector != -1`.  (In the `terminal` state with a non-sentinel
sector the C++ would dereference `NULL`; well-formed chains never reach it.) -/
def FileHeader.WriteBack : FileHeader → Int → (Int → SectorData) → (Int → SectorData)
  | .terminal nb ns nhs ds, sector, disk =>
    fun s => if s = sector then ⟨nb, ns, nhs, ds⟩ else disk s
  | .chained nb ns nhs ds next, sector, disk =>
    if nhs ≠ -1 then
      FileHeader.WriteBack next nhs (fun s => if s = sector then ⟨nb, ns, nhs, ds⟩ else disk s)
    else
      fun s => if s = sector then ⟨nb, ns, nhs, ds⟩ else disk s

/-- `FileHeader::FetchFrom` (filehdr.cc:130-153): decode the four fields from
the sector and, when `nextFileHeaderSector != -1`, recursively fetch the
successor into a fresh header.  The C++ recursion is bounded only by the disk
contents; `fuel` models the recursion depth and is irrelevant whenever it is
at least the chain length. -/
def FileHeader.FetchFrom (disk : Int → SectorData) : Int → Nat → FileHeader
  | sector, 0 =>
    FileHeader.terminal (disk sector).numBytes (disk sector).numSectors
      (disk sector).nextFileHeaderSector (disk sector).dataSectors
  | sector, fuel + 1 =>
    if (disk sector).nextFileHeaderSector ≠ -1 then
      FileHeader.chained (disk sector).numBytes (disk sector).numSectors
        (disk sector).nextFileHeaderSector (disk sector).dataSectors
        (FileHeader.FetchFrom disk (disk sector).nextFileHeaderSector fuel)
    else
      FileHeader.terminal (disk sector).numBytes (disk sector).numSectors
        (disk sector).nextFileHeaderSector (disk sector).dataSectors

/-- Recursion bound handed to `FetchFrom` by the facade model: a chain on a
`NumSectors`-sector disk never has more segments than sectors. -/
def FetchFuel : Nat := NumSectors

/-- Modelled from the spec: `DirectoryEntry` (directory.h not in src), §3:
`{inUse, isDir, sector, name}`. -/
structure DirEntry where
  inUse : Bool
  isDir : Bool
  sector : Int
  name : String
deriving DecidableEq

/-- Modelled from the spec: `Directory` (directory.cc not in src), §4.3: a
fixed-capacity table of `NumDirEntries` entries. -/
structure Directory where
  table : List DirEntry
deriving DecidableEq

/-- A freshly constructed directory: all entries unused. -/
def Directory.empty : Directory :=
  ⟨List.replicate NumDirEntries ⟨false, false, -1, ""⟩⟩

/-- Modelled from the spec (§4.3): `Find(name)` returns the sector of the
in-use entry with that name, or `-1`. -/
def Directory.Find (d : Directory) (name : String) : Int :=
  match d.table.find? (fun e => e.inUse && e.name == name) with
  | some e => e.sector
  | none => -1

/-- Modelled from the spec (§4.3): `IsDir(name)` is the `isDir` flag of the
in-use entry with that name, or false when absent. -/
def Directory.IsDir (d : Directory) (name : String) : Bool :=
  match d.table.find? (fun e => e.inUse && e.name == name) with
  | some e => e.isDir
  | none => false

/-- Modelled from the spec (§4.3): `Add(name, sector, isDir)` populates the
first unused slot; false when the name is present or the table is full. -/
def Directory.Add (d : Directory) (name : String) (sector : Int) (isDirFlag : Bool) :
    Bool × Directory :=
  if d.Find name ≠ -1 then (false, d)
  else
    match d.table.findIdx? (fun e => !e.inUse) with
    | none => (false, d)
    | some i => (true, ⟨d.table.set i ⟨true, isDirFlag, sector, name⟩⟩)

/-- Clear `inUse` on the first matching entry. -/
def removeFirstEntry : List DirEntry → String → List DirEntry
  | [], _ => []
  | e :: rest, name =>
    if e.inUse && e.name == name then { e with inUse := false } :: rest
    else e :: removeFirstEntry rest name

/-- Modelled from the spec (§4.3): `Remove(name)` clears `inUse` on the
matching slot. -/
def Directory.Remove (d : Directory) (name : String) : Directory :=
  ⟨removeFirstEntry d.table name⟩

/-- The on-disk state the facade operations read and write: the contents of
the bitmap file, the contents of every directory file (indexed by the sector
of the directory's header, the handle `OpenFile(sector)` denotes), and the
raw header sectors. -/
structure FSState where
  diskFreeMap : PersistentBitmap
  diskDirs : Int → Directory
  diskHeaders : Int → SectorData

/-- The `while` loop of `FileSystem::FindSubDir` (filesys.cc:505-549): as long
as a further token exists and the current token names a sub-directory, descend
into it (`NULL` when `Find` unexpectedly fails); on loop exit return the
current directory handle together with the token left in the buffer.  Note
the loop also exits, handing back the current handle, when `IsDir(token)` is
false with tokens still remaining. -/
def FileSystem.FindSubDirLoop (dirs : Int → Directory) :
    Int → String → List String → Option (Int × String)
  | curSector, token, [] => some (curSector, token)
  | curSector, token, nextToken :: rest =>
    if (dirs curSector).IsDir token then
      if (dirs curSector).Find token = -1 then none
      else FileSystem.FindSubDirLoop dirs ((dirs curSector).Find token) nextToken rest
    else some (curSector, token)

/-- `FileSystem::FindSubDir` (filesys.cc:505-549) on the token list `strtok`
produces from the path (the nonempty `/`-separated components): `NULL` for an
empty token list, otherwise the loop starting from the root directory. -/
def FileSystem.FindSubDir (dirs : Int → Directory) (tokens : List String) :
    Option (Int × String) :=
  match tokens with
  | [] => none
  | t :: rest => FileSystem.FindSubDirLoop dirs DirectorySector t rest

/-- `FileSystem::Create` (filesys.cc:183-257): resolve the containing
directory, reject a present name, `FindAndSet` a header sector, `Add` the
entry, `Allocate` the data blocks, and only on success write the header, the
containing directory and the bitmap back to disk.  A newly created
sub-directory's zeroed data sectors read back as an empty directory. -/
def FileSystem.Create (st : FSState) (tokens : List String) (initialSize : Int)
    (isDir : Bool) : Bool × FSState :=
  let size := if isDir then DirectoryFileSize else initialSize
  match FileSystem.FindSubDir st.diskDirs tokens with
  | none => (false, st)
  | some cd =>
    let directory := st.diskDirs cd.1
    if directory.Find cd.2 ≠ -1 then (false, st)
    else
      let fs1 := st.diskFreeMap.FindAndSet
      if fs1.1 = -1 then (false, st)
      else
        let ad := directory.Add cd.2 fs1.1 isDir
        if ad.1 = false then (false, st)
        else
          let ar := FileHeader.Allocate fs1.2 size
          if ar.ret = 0 then (false, st)
          else
            let newHeaders := FileHeader.WriteBack ar.hdr fs1.1 st.diskHeaders
            let dirs1 := fun s => if s = cd.1 then ad.2 else st.diskDirs s
            let dirs2 :=
              if isDir then fun s => if s = fs1.1 then Directory.empty else dirs1 s
              else dirs1
            (true, ⟨ar.freeMap, dirs2, newHeaders⟩)

/-- `FileSystem::Remove` (filesys.cc:345-422): resolve the containing
directory and the entry; when the entry is a directory and `recursion` holds,
first remove every in-use child of the sub-directory (path extended by
`"/" + child`); then fetch the inode chain, `Deallocate` it, `Clear` the head
header sector, remove the directory entry, and write the bitmap and the
containing directory back.  The function ends with `return FALSE` even on
this success path (filesys.cc:421).  The C++ child recursion is unbounded;
`fuel` models its depth. -/
def FileSystem.Remove : Nat → FSState → Bool → List String → Bool × FSState
  | 0, st, _, _ => (false, st)
  | fuel + 1, st, recursion, tokens =>
    match FileSystem.FindSubDir st.diskDirs tokens with
    | none => (false, st)
    | some cd =>
      let directory := st.diskDirs cd.1
      let sector := directory.Find cd.2
      if sector = -1 then (false, st)
      else
        let st1 :=
          if directory.IsDir cd.2 && recursion then
            (st.diskDirs sector).table.foldl
              (fun s e =>
                if e.inUse then (FileSystem.Remove fuel s true (tokens ++ [e.name])).2 else s)
              st
          else st
        let fileHdr := FileHeader.FetchFrom st1.diskHeaders sector FetchFuel
        let bm1 := FileHeader.Deallocate fileHdr st1.diskFreeMap
        let bm2 := bm1.Clear sector
        let directory1 := directory.Remove cd.2
        (false, ⟨bm2, fun s => if s = cd.1 then directory1 else st1.diskDirs s, st1.diskHeaders⟩)

/-- The open-file descriptor table state: which indices hold an open file
(`true` = non-NULL) and the `openedNum` counter.  The `FileSystem`
constructor (filesys.cc:71-73) sets `fileDescriptorTable[i] = NULL` for
`i` in `[0, MAXFILENUM-1]` and `openedNum = 0`. -/
structure DescriptorState where
  table : Nat → Bool
  openedNum : Nat

/-- The constructor-initialized table: every slot empty. -/
def initDescriptors : DescriptorState := ⟨fun _ => false, 0⟩

/-- The search loop of `FileSystem::Open` (filesys.cc:311-323):
`for (ID = 1; ID <= MAXFILENUM; ID++)` probing `fileDescriptorTable[ID]`,
stopping at the first empty slot.  Returns the list of probed indices and the
chosen index, if any. -/
def scanDescriptors (table : Nat → Bool) (maxFileNum : Nat) : Nat → List Nat × Option Nat
  | id =>
    if h : maxFileNum < id then ([], none)
    else if table id then
      let r := scanDescriptors table maxFileNum (id + 1)
      (id :: r.1, r.2)
    else ([id], some id)
termination_by id => maxFileNum + 1 - id
decreasing_by omega

/-- The descriptor-table behaviour of one `FileSystem::Open` call that reaches
the table (filesys.cc:289-323): fail outright when `openedNum == MAXFILENUM`,
otherwise run the search loop from `ID = 1` and install the handle at the
first empty index.  Returns the probed indices and the new state. -/
def openOnce (maxFileNum : Nat) (st : DescriptorState) : List Nat × DescriptorState :=
  if st.openedNum = maxFileNum then ([], st)
  else
    let r := scanDescriptors st.table maxFileNum 1
    match r.2 with
    | some id => (r.1, ⟨fun j => if j = id then true else st.table j, st.openedNum + 1⟩)
    | none => (r.1, st)

/-- The table after `k` successful `Open` calls from the fresh state. -/
def openIter (maxFileNum : Nat) : Nat → DescriptorState
  | 0 => initDescriptors
  | k + 1 => (openOnce maxFileNum (openIter maxFileNum k)).2

/-- A 64-sector bitmap with exactly 30 free sectors. -/
def bm30 : PersistentBitmap := ⟨List.replicate 30 false ++ List.replicate 34 true⟩

/-- A 64-sector bitmap with exactly 31 free sectors. -/
def bm31 : PersistentBitmap := ⟨List.replicate 31 false ++ List.replicate 33 true⟩

/-- A 64-sector bitmap with sectors 0 and 1 (bitmap and root directory
headers) in use and 62 sectors free: the post-format state of §8. -/
def bm62 : PersistentBitmap := ⟨true :: true :: List.replicate 62 false⟩

/-- A 64-sector bitmap with every sector free. -/
def bm64 : PersistentBitmap := ⟨List.replicate 64 false⟩

/-- A freshly formatted file system: bitmap `bm62`, an empty root directory,
and blank header sectors. -/
def st2init : FSState :=
  ⟨bm62, fun _ => Directory.empty, fun _ => ⟨0, 0, -1, []⟩⟩

/-- A root directory containing the single regular file `a` at sector 2. -/
def rootDir4 : Directory :=
  ⟨⟨true, false, 2, "a"⟩ :: List.replicate 9 ⟨false, false, -1, ""⟩⟩

/-- A file system holding one regular file `/a` (header at sector 2, one data
sector 3); sectors 0-3 are in use, 60 are free. -/
def st4 : FSState :=
  ⟨⟨List.replicate 4 true ++ List.replicate 60 false⟩,
   fun s => if s = 1 then rootDir4 else Directory.empty,
   fun s => if s = 2 then ⟨128, 1, -1, 3 :: List.replicate 29 (-1)⟩ else ⟨0, 0, -1, []⟩⟩

/-- A concrete well-formed two-segment chain: head at sector 4 holds
`MaxFileSize` bytes, successor at sector 5 holds 1 byte. -/
def hdr2seg : FileHeader :=
  FileHeader.chained 3840 30 5 (List.replicate 30 7)
    (FileHeader.terminal 1 1 (-1) (36 :: List.replicate 29 (-1)))

/-- A blank sector store. -/
def baseDisk : Int → SectorData := fun _ => ⟨0, 0, -1, []⟩

/-- `fasList` finds a free bit whenever one exists, and setting it lowers the
free count by exactly one. -/
theorem fasList_count (l : List Bool) (h : 0 < l.count false) :
    ∃ r, fasList l = some r ∧ r.2.count false + 1 = l.count false := by
  induction l with
  | nil => simp at h
  | cons b rest ih =>
    cases b with
    | false =>
      refine ⟨(0, true :: rest), rfl, ?_⟩
      simp [List.count_cons]
    | true =>
      have hr : 0 < rest.count false := by simpa [List.count_cons] using h
      obtain ⟨r, hfas, hcount⟩ := ih hr
      refine ⟨(r.1 + 1, true :: r.2), ?_, ?_⟩
      · simp [fasList, hfas]
      · simpa [List.count_cons] using hcount

/-- `FindAndSet` on a bitmap with a free sector returns a nonnegative sector
and lowers `NumClear` by one. -/
theorem FindAndSet_spec (bm : PersistentBitmap) (h : 0 < bm.NumClear) :
    0 ≤ (bm.FindAndSet).1 ∧ (bm.FindAndSet).2.NumClear + 1 = bm.NumClear := by
  obtain ⟨r, hfas, hcount⟩ := fasList_count bm.bits h
  unfold PersistentBitmap.FindAndSet
  rw [hfas]
  exact ⟨Int.natCast_nonneg r.1, hcount⟩

/-- The allocation loop consumes exactly `n` free sectors when `n` are
available. -/
theorem allocSectors_numClear :
    ∀ (n : Nat) (bm : PersistentBitmap), n ≤ bm.NumClear →
      ((FileHeader.allocSectors bm n).2).NumClear + n = bm.NumClear := by
  intro n
  induction n with
  | zero => intro bm _; simp [FileHeader.allocSectors]
  | succ k ih =>
    intro bm hle
    have h0 : 0 < bm.NumClear := by omega
    obtain ⟨hge, hcount⟩ := FindAndSet_spec bm h0
    have hk : k ≤ (bm.FindAndSet).2.NumClear := by omega
    have hrec := ih (bm.FindAndSet).2 hk
    simp only [FileHeader.allocSectors]
    omega

/-- Every chain `Allocate` builds satisfies the §8 invariant: each segment
that carries a successor holds exactly `MaxFileSize` bytes, whatever the fuel
and however the bitmap behaves. -/
theorem allocateF_nonTerminalFull :
    ∀ (fuel : Nat) (bm : PersistentBitmap) (fs : Int),
      ((FileHeader.AllocateF fuel bm fs).hdr).nonTerminalFullb = true := by
  intro fuel
  induction fuel with
  | zero =>
    intro bm fs
    rw [FileHeader.AllocateF]
    by_cases hfs : MaxFileSize < fs <;>
      simp only [Int.sub_pos, hfs, ite_true, ite_false] <;>
      split <;> simp [FileHeader.nonTerminalFullb]
  | succ f ih =>
    intro bm fs
    rw [FileHeader.AllocateF]
    by_cases hfs : MaxFileSize < fs <;>
      simp only [Int.sub_pos, hfs, ite_true, ite_false] <;>
      split <;> simp [FileHeader.nonTerminalFullb, ih]

/-- One header addresses exactly `NumDirect` sectors. -/
theorem divRoundUp_max : divRoundUp MaxFileSize SectorSize = NumDirect := by decide

/-- A segment of at most `MaxFileSize` bytes needs at most `NumDirect`
sectors. -/
theorem divRoundUp_le_numDirect (fs : Int) (h : fs ≤ MaxFileSize) :
    divRoundUp fs SectorSize ≤ NumDirect := by
  simp only [divRoundUp, MaxFileSize, NumDirect, SectorSize] at *
  split <;> omega

/-- A request of at most `MaxFileSize` bytes never produces a successor: the
header stays terminal with the sentinel successor sector, whatever the bitmap
and the fuel. -/
theorem allocateF_not_chained (fuel : Nat) (bm : PersistentBitmap) (fs : Int)
    (h : fs ≤ MaxFileSize) :
    (FileHeader.AllocateF fuel bm fs).hdr.isChained = false
    ∧ (FileHeader.AllocateF fuel bm fs).hdr.nextFileHeaderSector = -1 := by
  have hfs : ¬ MaxFileSize < fs := not_lt.mpr h
  cases fuel <;>
    (rw [FileHeader.AllocateF]
     simp only [Int.sub_pos, hfs, ite_false]
     split <;> simp [FileHeader.isChained, FileHeader.nextFileHeaderSector])

/-- A request strictly above `MaxFileSize` produces a successor whenever the
entry check passes. -/
theorem allocateF_chained (f : Nat) (bm : PersistentBitmap) (fs : Int)
    (hclear : NumDirect ≤ (bm.NumClear : Int)) (hgt : MaxFileSize < fs) :
    (FileHeader.AllocateF (f + 1) bm fs).hdr.isChained = true := by
  rw [FileHeader.AllocateF]
  simp only [Int.sub_pos, hgt, ite_true]
  rw [if_neg (by rw [divRoundUp_max]; omega)]
  simp [FileHeader.isChained]

/-- Allocating exactly `MaxFileSize` bytes yields a single full segment and
returns one header's worth of bytes. -/
theorem allocateF_exact_max (fuel : Nat) (bm : PersistentBitmap)
    (hclear : NumDirect ≤ (bm.NumClear : Int)) :
    (FileHeader.AllocateF fuel bm MaxFileSize).hdr.segBytes = [MaxFileSize]
    ∧ (FileHeader.AllocateF fuel bm MaxFileSize).hdr.nextFileHeaderSector = -1
    ∧ (FileHeader.AllocateF fuel bm MaxFileSize).ret = SectorSize := by
  have hlt : ¬ MaxFileSize < MaxFileSize := lt_irrefl _
  cases fuel <;>
    (rw [FileHeader.AllocateF]
     simp only [Int.sub_pos, hlt, ite_false]
     rw [if_neg (by rw [divRoundUp_max]; omega)]
     simp [FileHeader.segBytes, FileHeader.nextFileHeaderSector])

/-- Allocating a single byte yields one one-byte segment when a sector is
free. -/
theorem allocateF_one (fuel : Nat) (bm : PersistentBitmap) (h1 : 1 ≤ bm.NumClear) :
    (FileHeader.AllocateF fuel bm 1).hdr.segBytes = [1]
    ∧ (FileHeader.AllocateF fuel bm 1).ret = SectorSize := by
  have hlt : ¬ MaxFileSize < (1 : Int) := by decide
  have hdr1 : divRoundUp 1 SectorSize = 1 := by decide
  cases fuel <;>
    (rw [FileHeader.AllocateF]
     simp only [Int.sub_pos, hlt, ite_false]
     rw [if_neg (by rw [hdr1]; omega)]
     simp [FileHeader.segBytes])

/-- Allocating `MaxFileSize + 1` bytes from a bitmap with at least 32 free
sectors yields exactly two segments of `MaxFileSize` and 1 byte, and returns
two headers' worth of bytes. -/
theorem allocateF_max_plus_one (f : Nat) (bm : PersistentBitmap)
    (hclear : 32 ≤ bm.NumClear) :
    (FileHeader.AllocateF (f + 1) bm (MaxFileSize + 1)).hdr.segBytes = [MaxFileSize, 1]
    ∧ (FileHeader.AllocateF (f + 1) bm (MaxFileSize + 1)).ret = SectorSize + SectorSize := by
  have hgt : MaxFileSize < MaxFileSize + 1 := by omega
  have hsub : MaxFileSize + 1 - MaxFileSize = (1 : Int) := by omega
  have hnd : NumDirect.toNat = 30 := by decide
  rw [FileHeader.AllocateF]
  simp only [Int.sub_pos, hgt, ite_true]
  rw [if_neg (by rw [divRoundUp_max]; simp only [NumDirect]; omega)]
  simp only [divRoundUp_max, hnd, hsub]
  have h30 : 30 ≤ bm.NumClear := by omega
  have hA := allocSectors_numClear 30 bm h30
  have h0 : 0 < ((FileHeader.allocSectors bm 30).2).NumClear := by omega
  have hF := (FindAndSet_spec _ h0).2
  have h1 : 1 ≤ ((FileHeader.allocSectors bm 30).2.FindAndSet).2.NumClear := by omega
  obtain ⟨hseg, hret⟩ := allocateF_one f _ h1
  constructor
  · simp [FileHeader.segBytes, hseg]
  · rw [hret]

/-- `WriteBack` touches only the chain's own header sectors. -/
theorem writeBack_ne (h : FileHeader) :
    ∀ (sector : Int) (disk : Int → SectorData) (t : Int),
      t ≠ sector → t ∉ h.succSectors → FileHeader.WriteBack h sector disk t = disk t := by
  induction h with
  | terminal nb ns nhs ds =>
    intro sector disk t ht _
    simp [FileHeader.WriteBack, ht]
  | chained nb ns nhs ds next ih =>
    intro sector disk t ht hmem
    simp only [FileHeader.succSectors, List.mem_cons, not_or] at hmem
    rw [FileHeader.WriteBack]
    split
    · rw [ih nhs _ t hmem.1 hmem.2]
      simp [ht]
    · simp [ht]

/-- `WriteBack` then `FetchFrom` reproduces a well-formed chain exactly, when
the chain's header sectors are pairwise distinct and the fetch depth covers
the chain. -/
theorem roundtrip_aux (h : FileHeader) :
    ∀ (sector : Int) (disk : Int → SectorData) (fuel : Nat),
      h.wfb = true → (sector :: h.succSectors).Nodup → h.chainLen ≤ fuel →
      FileHeader.FetchFrom (FileHeader.WriteBack h sector disk) sector fuel = h := by
  induction h with
  | terminal nb ns nhs ds =>
    intro sector disk fuel hwf hnd hfl
    have hnhs : nhs = -1 := by simpa [FileHeader.wfb] using hwf
    subst hnhs
    cases fuel <;> simp [FileHeader.FetchFrom, FileHeader.WriteBack]
  | chained nb ns nhs ds next ih =>
    intro sector disk fuel hwf hnd hfl
    rw [FileHeader.wfb, Bool.and_eq_true, bne_iff_ne] at hwf
    obtain ⟨hne, hwf2⟩ := hwf
    simp only [FileHeader.succSectors] at hnd
    rw [List.nodup_cons] at hnd
    obtain ⟨hmem, hnd2⟩ := hnd
    rw [List.mem_cons, not_or] at hmem
    obtain ⟨hsn, hsm⟩ := hmem
    rw [FileHeader.chainLen] at hfl
    cases fuel with
    | zero => omega
    | succ f =>
      rw [FileHeader.WriteBack, if_pos hne, FileHeader.FetchFrom]
      have hD : FileHeader.WriteBack next nhs
          (fun s => if s = sector then ⟨nb, ns, nhs, ds⟩ else disk s) sector
          = ⟨nb, ns, nhs, ds⟩ := by
        rw [writeBack_ne next nhs _ sector hsn hsm]
        simp
      rw [hD]
      dsimp only
      rw [if_pos hne, ih nhs _ f hwf2 hnd2 (by omega)]

/-- `FileSystem::Create` either fails leaving the state exactly as given, or
reports success; there is no third outcome. -/
theorem create_cases (st : FSState) (tokens : List String) (n : Int) (d : Bool) :
    FileSystem.Create st tokens n d = (false, st)
    ∨ (FileSystem.Create st tokens n d).1 = true := by
  unfold FileSystem.Create
  cases hf : FileSystem.FindSubDir st.diskDirs tokens with
  | none => exact Or.inl rfl
  | some cd =>
    dsimp only
    repeat' split
    all_goals first | exact Or.inl rfl | exact Or.inr rfl

/-- The `Open` search loop scans exactly the occupied prefix `1..k` and picks
slot `k + 1` when slots `1..k` are occupied and `k + 1` is within the loop
bound. -/
theorem scanDescriptors_occupied (maxFileNum k : Nat) (table : Nat → Bool)
    (ht : ∀ j, table j = decide (1 ≤ j ∧ j ≤ k)) :
    ∀ (n id : Nat), k + 1 - id = n → 1 ≤ id → id ≤ k + 1 → k < maxFileNum →
      (scanDescriptors table maxFileNum id).2 = some (k + 1)
      ∧ (k + 1) ∈ (scanDescriptors table maxFileNum id).1 := by
  intro n
  induction n with
  | zero =>
    intro id hn h1 hid hkM
    have hide : id = k + 1 := by omega
    subst hide
    rw [scanDescriptors]
    rw [dif_neg (by omega : ¬ maxFileNum < k + 1)]
    have hfree : table (k + 1) = false := by
      rw [ht]
      simp only [decide_eq_false_iff_not]
      omega
    simp [hfree]
  | succ m ih =>
    intro id hn h1 hid hkM
    have hidk : id ≤ k := by omega
    rw [scanDescriptors]
    rw [dif_neg (by omega : ¬ maxFileNum < id)]
    have hocc : table id = true := by
      rw [ht]
      simp only [decide_eq_true_eq]
      omega
    simp only [hocc, ite_true]
    obtain ⟨ha, hb⟩ := ih (id + 1) (by omega) (by omega) (by omega) hkM
    exact ⟨ha, List.mem_cons_of_mem _ hb⟩

/-- After `k` successful `Open` calls (`k ≤ MAXFILENUM`) the descriptor table
holds handles exactly at indices `1..k` and `openedNum = k`. -/
theorem openIter_spec (maxFileNum : Nat) :
    ∀ k, k ≤ maxFileNum →
      (openIter maxFileNum k).openedNum = k
      ∧ ∀ j, (openIter maxFileNum k).table j = decide (1 ≤ j ∧ j ≤ k) := by
  intro k
  induction k with
  | zero =>
    intro _
    refine ⟨rfl, fun j => ?_⟩
    show false = decide (1 ≤ j ∧ j ≤ 0)
    symm
    rw [decide_eq_false_iff_not]
    omega
  | succ k ih =>
    intro hk1
    obtain ⟨hnum, htab⟩ := ih (by omega)
    rw [openIter]
    unfold openOnce
    rw [hnum]
    rw [if_neg (by omega : ¬ k = maxFileNum)]
    obtain ⟨hsel, _⟩ :=
      scanDescriptors_occupied maxFileNum k _ htab k 1 (by omega) (le_refl 1) (by omega)
        (by omega)
    simp only [hsel]
    refine ⟨by trivial, fun j => ?_⟩
    by_cases hj : j = k + 1
    · subst hj
      rw [if_pos rfl]
      symm
      rw [decide_eq_true_eq]
      omega
    · rw [if_neg hj, htab j]
      exact decide_eq_decide.mpr (by omega)

/-- C1: the claim says that when `requestedBytes > MaxFileSize` and the
recursive `Allocate` on the successor header returns 0, the outer `Allocate`
also returns 0.  The code (filehdr.cc:101) instead returns
`SectorSize + 0 = SectorSize`: with exactly 31 free sectors and a request of
3841 bytes, the successor call (on the bitmap left after the 30 data-sector
`FindAndSet`s and the header `FindAndSet`) fails with 0, yet the outer call
returns `SectorSize`, which `Create` treats as success. -/
theorem c1_successor_failure_reported_as_success :
    MaxFileSize < 3841
    ∧ (FileHeader.Allocate (((FileHeader.allocSectors bm31 30).2).FindAndSet).2
        (3841 - MaxFileSize)).ret = 0
    ∧ (FileHeader.Allocate bm31 3841).ret = SectorSize + 0
    ∧ ¬ (SectorSize + 0 = 0) := by decide

/-- C2: the claim says `Create(p, n, false)` then `Remove(false, p)` restores
`NumClear()` because `Deallocate` also clears each successor's header sector.
`Deallocate` (filehdr.cc:114-121) only clears data sectors and `Remove` only
clears the head header sector, so creating and removing a two-segment file
(3841 bytes) on a freshly formatted disk leaks the successor header sector:
`NumClear` goes from 62 to 61, not back to 62. -/
theorem c2_remove_leaks_successor_header_sector :
    st2init.diskFreeMap.NumClear = 62
    ∧ (FileSystem.Create st2init ["a"] (MaxFileSize + 1) false).1 = true
    ∧ (FileSystem.Remove 1 (FileSystem.Create st2init ["a"] (MaxFileSize + 1) false).2
        false ["a"]).2.diskFreeMap.NumClear = 61 := by decide

/-- C3: the claim says the resolver returns the NULL handle whenever a
non-final path component does not name an existing sub-directory.  On the
path `/a/b` over an empty root directory, `a` is a non-final component that
is no sub-directory, yet `FindSubDir`'s loop merely exits (filesys.cc:523)
and hands back the root handle with `a` as the final name instead of NULL. -/
theorem c3_resolver_returns_handle_for_missing_intermediate :
    (Directory.empty).IsDir ("a") = false
    ∧ FileSystem.FindSubDir (fun _ => Directory.empty) ["a", "b"]
        = some (DirectorySector, "a") := by decide

/-- C4: the claim says `Remove` returns true exactly on success.  Removing
the existing file `/a` succeeds — the directory entry disappears and both its
header and data sectors return to the bitmap — yet `Remove` ends with
`return FALSE` (filesys.cc:421). -/
theorem c4_remove_returns_false_on_success :
    (FileSystem.Remove 1 st4 false ["a"]).1 = false
    ∧ ((FileSystem.Remove 1 st4 false ["a"]).2.diskDirs DirectorySector).Find ("a") = -1
    ∧ (FileSystem.Remove 1 st4 false ["a"]).2.diskFreeMap.NumClear = 62
    ∧ st4.diskFreeMap.NumClear = 60 := by decide

/-- C5: whenever `FileSystem::Create` returns failure, the on-disk bitmap
file and directory files are exactly as before the call: every failing
branch returns the incoming state unchanged, and the three write-backs
happen only in the success branch. -/
theorem c5_create_failure_preserves_disk (st : FSState) (tokens : List String)
    (n : Int) (d : Bool) (h : (FileSystem.Create st tokens n d).1 = false) :
    (FileSystem.Create st tokens n d).2 = st := by
  rcases create_cases st tokens n d with hc | hc
  · rw [hc]
  · rw [h] at hc
    simp at hc

/-- Witness for C5: a concrete failing `Create` (empty path) leaves the
concrete formatted state untouched. -/
theorem c5_witness :
    (FileSystem.Create st2init [] 0 false).1 = false
    ∧ (FileSystem.Create st2init [] 0 false).2 = st2init :=
  ⟨rfl, c5_create_failure_preserves_disk st2init [] 0 false rfl⟩

/-- C6: the claim says `Open`'s search loop only touches indices in
`[0, MAXFILENUM-1]`, the range the constructor initialises.  With
`MAXFILENUM = maxFileNum + 1`, after `MAXFILENUM - 1` successful opens the
next `Open` passes the `openedNum == MAXFILENUM` guard and its loop
(`for ID = 1; ID <= MAXFILENUM`) probes index `MAXFILENUM` itself, an index
the constructor's initialisation loop never touched. -/
theorem c6_open_probes_index_maxfilenum (maxFileNum : Nat) :
    (maxFileNum + 1)
      ∈ (openOnce (maxFileNum + 1) (openIter (maxFileNum + 1) maxFileNum)).1 := by
  obtain ⟨hnum, htab⟩ := openIter_spec (maxFileNum + 1) maxFileNum (by omega)
  unfold openOnce
  rw [hnum, if_neg (by omega : ¬ maxFileNum = maxFileNum + 1)]
  obtain ⟨hsel, hmem⟩ :=
    scanDescriptors_occupied (maxFileNum + 1) maxFileNum _ htab maxFileNum 1 (by omega)
      (le_refl 1) (by omega) (by omega)
  simp only [hsel]
  exact hmem

/-- C7: `Allocate` chains a successor exactly when the request strictly
exceeds `MaxFileSize` (given the entry check can pass), a request of exactly
`MaxFileSize` yields one full terminal segment with sentinel successor
sector, and a request of `MaxFileSize + 1` yields exactly the two segments
`[MaxFileSize, 1]` with a nonzero return. -/
theorem c7_allocate_chains_iff_above_maxfilesize (bm : PersistentBitmap) (fs : Int)
    (hclear : NumDirect ≤ (bm.NumClear : Int)) :
    ((FileHeader.Allocate bm fs).hdr.isChained = true ↔ MaxFileSize < fs)
    ∧ ((FileHeader.Allocate bm MaxFileSize).hdr.isChained = false
       ∧ (FileHeader.Allocate bm MaxFileSize).hdr.nextFileHeaderSector = -1
       ∧ (FileHeader.Allocate bm MaxFileSize).hdr.segBytes = [MaxFileSize])
    ∧ (32 ≤ bm.NumClear →
       (FileHeader.Allocate bm (MaxFileSize + 1)).hdr.segBytes = [MaxFileSize, 1]
       ∧ ¬ ((FileHeader.Allocate bm (MaxFileSize + 1)).ret = 0)) := by
  have hM : (0 : Int) < MaxFileSize := by decide
  refine ⟨⟨?_, ?_⟩, ?_, ?_⟩
  · intro hch
    by_contra hgt
    rw [not_lt] at hgt
    have h2 := (allocateF_not_chained fs.toNat bm fs hgt).1
    unfold FileHeader.Allocate at hch
    rw [h2] at hch
    simp at hch
  · intro hgt
    obtain ⟨f, hf⟩ : ∃ f, fs.toNat = f + 1 := ⟨fs.toNat - 1, by omega⟩
    unfold FileHeader.Allocate
    rw [hf]
    exact allocateF_chained f bm fs hclear hgt
  · have hnc := allocateF_not_chained MaxFileSize.toNat bm MaxFileSize (le_refl _)
    have hex := allocateF_exact_max MaxFileSize.toNat bm hclear
    exact ⟨hnc.1, hnc.2, hex.1⟩
  · intro h32
    obtain ⟨f, hf⟩ : ∃ f, (MaxFileSize + 1).toNat = f + 1 :=
      ⟨(MaxFileSize + 1).toNat - 1, by omega⟩
    have hmp := allocateF_max_plus_one f bm h32
    constructor
    · show (FileHeader.AllocateF (MaxFileSize + 1).toNat bm (MaxFileSize + 1)).hdr.segBytes
        = [MaxFileSize, 1]
      rw [hf]
      exact hmp.1
    · show ¬ (FileHeader.AllocateF (MaxFileSize + 1).toNat bm (MaxFileSize + 1)).ret = 0
      rw [hf, hmp.2]
      decide

/-- Witness for C7: on an all-free 64-sector bitmap, a 5000-byte request
chains, a `MaxFileSize` request stays single-segment, and a
`MaxFileSize + 1` request yields segments `[MaxFileSize, 1]`. -/
theorem c7_witness :
    NumDirect ≤ (bm64.NumClear : Int)
    ∧ (((FileHeader.Allocate bm64 5000).hdr.isChained = true) ↔ MaxFileSize < 5000)
    ∧ (FileHeader.Allocate bm64 MaxFileSize).hdr.segBytes = [MaxFileSize]
    ∧ (FileHeader.Allocate bm64 (MaxFileSize + 1)).hdr.segBytes = [MaxFileSize, 1] :=
  ⟨by decide,
   (c7_allocate_chains_iff_above_maxfilesize bm64 5000 (by decide)).1,
   (c7_allocate_chains_iff_above_maxfilesize bm64 5000 (by decide)).2.1.2.2,
   ((c7_allocate_chains_iff_above_maxfilesize bm64 5000 (by decide)).2.2 (by decide)).1⟩

/-- C8: the claim says that once `Allocate`'s entry check
`NumClear() >= numSectors` passes, no assertion in the invocation can fail.
With exactly `NumDirect` free sectors and a request of 3841 bytes the entry
check passes (30 >= 30), the 30 data-sector `FindAndSet`s consume every free
sector, and the additional successor-header `FindAndSet` returns -1, so
`ASSERT(nextFileHeaderSector >= 0)` (filehdr.cc:98) fails. -/
theorem c8_entry_check_passes_but_assert_fails :
    ¬ ((bm30.NumClear : Int) < divRoundUp MaxFileSize SectorSize)
    ∧ MaxFileSize < 3841
    ∧ (FileHeader.Allocate bm30 3841).assertsOk = false := by decide

/-- C9: every chain `Allocate` produces satisfies "every non-terminal segment
holds `MaxFileSize` bytes", and the invariant survives `WriteBack` followed
by `FetchFrom` of any well-formed chain that satisfies it (the fetched copy
being identical). -/
theorem c9_nonterminal_segments_full (bm : PersistentBitmap) (fs : Int)
    (h : FileHeader) (sector : Int) (disk : Int → SectorData) (fuel : Nat)
    (hwf : h.wfb = true) (hnd : (sector :: h.succSectors).Nodup)
    (hfl : h.chainLen ≤ fuel) (hfull : h.nonTerminalFullb = true) :
    ((FileHeader.Allocate bm fs).hdr).nonTerminalFullb = true
    ∧ (FileHeader.FetchFrom (FileHeader.WriteBack h sector disk) sector fuel).nonTerminalFullb
        = true := by
  refine ⟨allocateF_nonTerminalFull fs.toNat bm fs, ?_⟩
  rw [roundtrip_aux h sector disk fuel hwf hnd hfl]
  exact hfull

/-- Witness for C9: the invariant holds for a concrete allocation and for a
concrete two-segment chain refetched from disk. -/
theorem c9_witness :
    hdr2seg.wfb = true ∧ (4 :: hdr2seg.succSectors).Nodup ∧ hdr2seg.chainLen ≤ 2
    ∧ hdr2seg.nonTerminalFullb = true
    ∧ ((FileHeader.Allocate bm64 5000).hdr).nonTerminalFullb = true
    ∧ (FileHeader.FetchFrom (FileHeader.WriteBack hdr2seg 4 baseDisk) 4 2).nonTerminalFullb
        = true :=
  ⟨by decide, by decide, by decide, by decide,
   (c9_nonterminal_segments_full bm64 5000 hdr2seg 4 baseDisk 2 (by decide) (by decide)
     (by decide) (by decide)).1,
   (c9_nonterminal_segments_full bm64 5000 hdr2seg 4 baseDisk 2 (by decide) (by decide)
     (by decide) (by decide)).2⟩

/-- C10: `WriteBack(sector)` followed by `FetchFrom(sector)` on a fresh
header rebuilds a chain whose every persisted field — `numBytes`,
`numSectors`, `nextFileHeaderSector`, `dataSectors`, and recursively every
successor segment — is identical to the original, for any well-formed chain
whose header sectors are pairwise distinct and any sufficient fetch depth. -/
theorem c10_writeback_fetchfrom_roundtrip (h : FileHeader) (sector : Int)
    (disk : Int → SectorData) (fuel : Nat) (hwf : h.wfb = true)
    (hnd : (sector :: h.succSectors).Nodup) (hfl : h.chainLen ≤ fuel) :
    FileHeader.FetchFrom (FileHeader.WriteBack h sector disk) sector fuel = h :=
  roundtrip_aux h sector disk fuel hwf hnd hfl

/-- Witness for C10: a concrete two-segment chain written at sector 4 and
refetched is reproduced exactly. -/
theorem c10_witness :
    hdr2seg.wfb = true ∧ (4 :: hdr2seg.succSectors).Nodup ∧ hdr2seg.chainLen ≤ 2
    ∧ FileHeader.FetchFrom (FileHeader.WriteBack hdr2seg 4 baseDisk) 4 2 = hdr2seg :=
  ⟨by decide, by decide, by decide,
   c10_writeback_fetchfrom_roundtrip hdr2seg 4 baseDisk 2 (by decide) (by decide) (by decide)⟩
